import Mathlib

/-!
# Verification of the `thread-checked-lock` crate

A shallow embedding, in Lean, of the core of the `thread-checked-lock` Rust
crate: the per-thread registry of held mutex identifiers
(`src/locked_mutexes_inner.rs`), the mutex-identifier allocator
(`src/mutex_id.rs`), and the checked mutex with its guard (`src/mutex.rs`).

Modelling conventions:
* `MutexID` (a `NonZeroU64` in the source) is modelled as `Nat`; the non-zero
  and 64-bit aspects matter only for the allocator, where they are stated
  explicitly.
* The Rust `HashSet<MutexID>` overflow set is modelled as a `Finset MutexID`
  (an unordered, duplicate-free collection — exactly the semantics of a hash
  set).
* The fixed-capacity inline array `[Option<MutexID>; INLINE]` is modelled as a
  `List (Option MutexID)`; its length is the inline capacity.  The source's
  algorithms are uniform in the capacity (a const generic), so no fixed length
  is imposed.
* Mutating Rust methods become state-passing functions returning
  `result × new-state`.
* The per-thread registry is thread-local state in Rust, accessed through
  `locked_mutexes.rs`, whose functions delegate directly (one per operation) to
  `LockedMutexesInner`.  Here it is passed explicitly as a `LockedMutexesInner`
  argument representing the calling thread's registry.
-/

namespace ThreadCheckedLock

/-- A mutex identifier.  In the source this is `MutexID(NonZeroU64)`. -/
abbrev MutexID := Nat

/-- Embeds `LockedMutexesInner<INLINE>` from `locked_mutexes_inner.rs`:
the per-thread record of which mutexes the current thread holds.
`inline_ids` is the inline slot array `[Option<MutexID>; INLINE]`
(its length is the inline capacity) and `id_set` is the overflow
`HashSet<MutexID>`. -/
structure LockedMutexesInner where
  inline_ids : List (Option MutexID)
  id_set     : Finset MutexID
deriving DecidableEq

namespace LockedMutexesInner

/-- Embeds `LockedMutexesInner::new`: all inline slots empty
(`[None; INLINE]`), empty overflow set. -/
def new (INLINE : Nat) : LockedMutexesInner :=
  { inline_ids := List.replicate INLINE none
    id_set     := ∅ }

/-- Embeds the `for id in &mut self.inline_ids` loop of `register_locked`:
walk the slots looking for the first empty (`None`) slot.  At that slot, the
source first checks the overflow set; if the id is there, it returns `false`
without writing, otherwise it writes `Some(mutex_id)` into the slot and
returns `true`.  Returns `none` when there is no empty slot (the loop in the
source falls through to the `id_set.insert` call). -/
def insertFirstEmpty (mutex_id : MutexID) (idSet : Finset MutexID) :
    List (Option MutexID) → Option (Bool × List (Option MutexID))
  | [] => none
  | none :: rest =>
      if mutex_id ∈ idSet then some (false, none :: rest)
      else some (true, some mutex_id :: rest)
  | some other :: rest =>
      (insertFirstEmpty mutex_id idSet rest).map fun br => (br.1, some other :: br.2)

/-- Embeds `LockedMutexesInner::register_locked`.  Returns `true` iff
`mutex_id` was not previously registered; in either case `mutex_id` is
registered in the returned state.  Mirrors the source: first the
`inline_ids.contains(&Some(mutex_id))` check, then the slot loop
(`insertFirstEmpty`), then the `id_set.insert` fallback (whose Rust
`HashSet::insert` result is `true` iff the value was absent). -/
def register_locked (lm : LockedMutexesInner) (mutex_id : MutexID) :
    Bool × LockedMutexesInner :=
  if some mutex_id ∈ lm.inline_ids then
    (false, lm)
  else
    match insertFirstEmpty mutex_id lm.id_set lm.inline_ids with
    | some (changed, newInline) => (changed, { lm with inline_ids := newInline })
    | none =>
        (decide (mutex_id ∉ lm.id_set), { lm with id_set := insert mutex_id lm.id_set })

/-- Embeds the `for id in &mut self.inline_ids` loop of `register_unlocked`:
clear the first slot equal to `Some(mutex_id)`.  Returns `none` when no slot
matches (the loop in the source falls through to `id_set.remove`). -/
def removeFirstMatch (mutex_id : MutexID) :
    List (Option MutexID) → Option (List (Option MutexID))
  | [] => none
  | slot :: rest =>
      if slot = some mutex_id then some (none :: rest)
      else (removeFirstMatch mutex_id rest).map fun r => slot :: r

/-- Embeds `LockedMutexesInner::register_unlocked`.  Returns `true` iff
`mutex_id` was registered; in either case it is not registered in the
returned state.  Mirrors the source: the slot loop (`removeFirstMatch`), then
the `id_set.remove` fallback (whose Rust `HashSet::remove` result is `true`
iff the value was present). -/
def register_unlocked (lm : LockedMutexesInner) (mutex_id : MutexID) :
    Bool × LockedMutexesInner :=
  match removeFirstMatch mutex_id lm.inline_ids with
  | some newInline => (true, { lm with inline_ids := newInline })
  | none =>
      (decide (mutex_id ∈ lm.id_set), { lm with id_set := lm.id_set.erase mutex_id })

/-- Embeds `LockedMutexesInner::locked_by_current_thread`: membership in
either the inline slots or the overflow set. -/
def locked_by_current_thread (lm : LockedMutexesInner) (mutex_id : MutexID) : Bool :=
  decide (some mutex_id ∈ lm.inline_ids) || decide (mutex_id ∈ lm.id_set)

/-- The representation invariant of the registry (spec §3): an id appears in
at most one place — never in both the inline slots and the overflow set, and
never in two inline slots. -/
def Inv (lm : LockedMutexesInner) : Prop :=
  (∀ j : MutexID, ¬(some j ∈ lm.inline_ids ∧ j ∈ lm.id_set)) ∧
  (∀ j : MutexID, lm.inline_ids.count (some j) ≤ 1)

end LockedMutexesInner

/-! ## The identifier allocator (`mutex_id.rs`) -/

/-- `MAX_MUTEXES_PER_PROCESS` from `mutex_id.rs`: `1 << 63`. -/
def MAX_MUTEXES_PER_PROCESS : Nat := 2 ^ 63

/-- Embeds `next_counter` from `mutex_id.rs`: the process-wide `AtomicU64`
counter starting at `0`; `fetch_add(1)` returns the old value and stores the
incremented value, wrapping at `2^64`.  The counter cell is passed as
explicit state. -/
def next_counter (state : Nat) : Nat × Nat :=
  (state, (state + 1) % 2 ^ 64)

/-- Embeds `next_id` from `mutex_id.rs`: take the next counter value; the
`assert!(counter < MAX_MUTEXES_PER_PROCESS)` is modelled by returning `none`
(the call panics, terminating rather than producing an id) when the bound is
reached; otherwise the id is `counter + 1` (nonzero, as wrapped in
`NonZeroU64`). -/
def next_id (state : Nat) : Option (MutexID × Nat) :=
  let (counter, state') := next_counter state
  if counter < MAX_MUTEXES_PER_PROCESS then
    some (counter + 1, state')
  else
    none

/-- Runs `next_id` `n` times starting from the initial counter state `0`,
collecting the issued ids in order.  Returns `none` if any call hits the
fatal bound. -/
def runIds : Nat → Option (Nat × List MutexID)
  | 0 => some (0, [])
  | n + 1 =>
      (runIds n).bind fun cs =>
        (next_id cs.1).map fun ic => (ic.2, cs.2 ++ [ic.1])

/-! ## The checked mutex (`mutex.rs`)

The underlying `std::sync::Mutex` calls (`Mutex::lock`, `Mutex::try_lock`)
interact with other threads; their outcome at the moment of the call is
abstracted as an oracle argument (`UnderlyingLock` / `UnderlyingTryLock`)
supplied to the embedded operation: `ok` (acquired cleanly), `poisoned`
(acquired, but a previous holder panicked), and for the non-blocking call
`wouldBlock` (held by another thread). -/

/-- Outcome of the underlying blocking `Mutex::lock` call: `std` blocks until
it acquires the lock, then reports clean or poisoned acquisition. -/
inductive UnderlyingLock where
  | ok
  | poisoned
deriving DecidableEq

/-- Outcome of the underlying non-blocking `Mutex::try_lock` call. -/
inductive UnderlyingTryLock where
  | ok
  | poisoned
  | wouldBlock
deriving DecidableEq

/-- Embeds the data of `ThreadCheckedMutexGuard<'a, T>`: the id of the mutex
it guards.  (The inner `MutexGuard` is the fact that the underlying lock is
held; the protected value is reached through the mutex in this model.) -/
structure ThreadCheckedMutexGuard where
  mutex_id : MutexID
deriving DecidableEq

/-- The result of `ThreadCheckedMutex::lock` (`LockResult` =
`Result<Guard, LockError<Guard>>` in `error.rs`): success, the `Poisoned`
error (which still carries an acquired guard), or `LockedByCurrentThread`. -/
inductive LockOutcome where
  | ok (guard : ThreadCheckedMutexGuard)
  | errPoisoned (guard : ThreadCheckedMutexGuard)
  | errLockedByCurrentThread
deriving DecidableEq

/-- The result of `ThreadCheckedMutex::try_lock` (`TryLockResult` in
`error.rs`): success, `Poisoned` (still carrying an acquired guard),
`LockedByCurrentThread`, or `WouldBlock`. -/
inductive TryLockOutcome where
  | ok (guard : ThreadCheckedMutexGuard)
  | errPoisoned (guard : ThreadCheckedMutexGuard)
  | errLockedByCurrentThread
  | errWouldBlock
deriving DecidableEq

/-- Whether a `lock` call acquired the mutex (cleanly or wrapped in a poison
error). -/
def LockOutcome.acquired : LockOutcome → Bool
  | .ok _ => true
  | .errPoisoned _ => true
  | .errLockedByCurrentThread => false

/-- Whether a `try_lock` call acquired the mutex (cleanly or wrapped in a
poison error). -/
def TryLockOutcome.acquired : TryLockOutcome → Bool
  | .ok _ => true
  | .errPoisoned _ => true
  | _ => false

/-- Embeds `ThreadCheckedMutex::lock` for a mutex with id `mutex_id`, acting
on the calling thread's registry `reg`.  Mirrors the source: call
`register_locked`; if it returns `true`, perform the underlying blocking
`Mutex::lock` (outcome abstracted by `resp`) and wrap the guard (plainly, or
in a `Poisoned` error); otherwise return `LockedByCurrentThread` without
touching the underlying mutex. -/
def lock (mutex_id : MutexID) (reg : LockedMutexesInner) (resp : UnderlyingLock) :
    LockOutcome × LockedMutexesInner :=
  let res := reg.register_locked mutex_id
  if res.1 then
    match resp with
    | .ok => (.ok ⟨mutex_id⟩, res.2)
    | .poisoned => (.errPoisoned ⟨mutex_id⟩, res.2)
  else
    (.errLockedByCurrentThread, res.2)

/-- Embeds `ThreadCheckedMutex::try_lock` for a mutex with id `mutex_id`,
acting on the calling thread's registry `reg`.  Mirrors the source: first
check `locked_by_current_thread` and fail with `LockedByCurrentThread` before
ever consulting the underlying mutex; otherwise perform the underlying
`Mutex::try_lock` (outcome abstracted by `resp`); on (possibly poisoned)
success call `register_locked`, discarding its boolean result, and return the
guard; on `WouldBlock` return the error with the registry untouched. -/
def try_lock (mutex_id : MutexID) (reg : LockedMutexesInner) (resp : UnderlyingTryLock) :
    TryLockOutcome × LockedMutexesInner :=
  if reg.locked_by_current_thread mutex_id then
    (.errLockedByCurrentThread, reg)
  else
    match resp with
    | .ok => (.ok ⟨mutex_id⟩, (reg.register_locked mutex_id).2)
    | .poisoned => (.errPoisoned ⟨mutex_id⟩, (reg.register_locked mutex_id).2)
    | .wouldBlock => (.errWouldBlock, reg)

/-- Embeds `<ThreadCheckedMutexGuard as Drop>::drop`: unconditionally call
`register_unlocked` for the guard's id on the current thread's registry
(after which the inner `MutexGuard` is dropped, releasing the underlying
lock).  The returned boolean is `was_locked`, the value checked by the
`debug_assert!` in the source. -/
def ThreadCheckedMutexGuard.drop (g : ThreadCheckedMutexGuard)
    (reg : LockedMutexesInner) : Bool × LockedMutexesInner :=
  reg.register_unlocked g.mutex_id

/-! ## Bypassing accessors (`into_inner`, `get_mut`) and the poison-only
error (`AccessError` in `error.rs`) -/

/-- `std::sync::PoisonError<T>`: wraps the value/guard that was obtained
despite the poison. -/
structure PoisonError (α : Type) where
  inner : α
deriving DecidableEq

/-- `AccessError<T>` from `error.rs`: a struct whose only field is
`pub poison: PoisonError<T>`.  There is no `WouldBlock` or
`LockedByCurrentThread` alternative — the type has exactly this one shape. -/
structure AccessError (α : Type) where
  poison : PoisonError α
deriving DecidableEq

/-- The state of the underlying `std::sync::Mutex<T>` as relevant to the
ownership-based accessors: its poison flag and the protected value (the
latest value written through any access). -/
structure StdMutex (α : Type) where
  poisoned : Bool
  value    : α
deriving DecidableEq

/-- Embeds the data of `ThreadCheckedMutex<T>`: an id plus the underlying
`Mutex<T>`. -/
structure ThreadCheckedMutex (α : Type) where
  mutex_id : MutexID
  mutex    : StdMutex α
deriving DecidableEq

/-- `std`'s `Mutex::into_inner`: returns the protected value, wrapped in a
`PoisonError` when the mutex is poisoned. -/
def StdMutex.into_inner (m : StdMutex α) : Except (PoisonError α) α :=
  if m.poisoned then .error ⟨m.value⟩ else .ok m.value

/-- `std`'s `Mutex::get_mut`: an exclusive borrow of the protected value,
wrapped in a `PoisonError` when the mutex is poisoned.  Modelled by the value
the returned `&mut T` points at. -/
def StdMutex.get_mut (m : StdMutex α) : Except (PoisonError α) α :=
  if m.poisoned then .error ⟨m.value⟩ else .ok m.value

/-- Embeds `ThreadCheckedMutex::into_inner`:
`self.mutex.into_inner().map_err(Into::into)`.  The body consults only the
underlying mutex — no thread registry appears (no registration or reentrancy
bookkeeping). -/
def ThreadCheckedMutex.into_inner (m : ThreadCheckedMutex α) :
    Except (AccessError α) α :=
  m.mutex.into_inner.mapError fun p => ⟨p⟩

/-- Embeds `ThreadCheckedMutex::get_mut`:
`self.mutex.get_mut().map_err(Into::into)`.  As with `into_inner`, no thread
registry appears. -/
def ThreadCheckedMutex.get_mut (m : ThreadCheckedMutex α) :
    Except (AccessError α) α :=
  m.mutex.get_mut.mapError fun p => ⟨p⟩

/-- A write of `v` to the protected value through some prior exclusive access
(a guard's `DerefMut` or `get_mut`). -/
def ThreadCheckedMutex.setValue (m : ThreadCheckedMutex α) (v : α) :
    ThreadCheckedMutex α :=
  { m with mutex := { m.mutex with value := v } }

/-! ## Single-thread traces of operations on one mutex

For the temporal claim, a thread performs an arbitrary sequence of `lock`,
`try_lock`, and guard-drop operations on one `ThreadCheckedMutex`.  The state
is the thread's registry together with whether the thread currently has a
live guard for the mutex (`holding`).  A drop operation when no guard is live
is a no-op (in Rust, there is no guard to drop). -/

/-- One operation of a single-thread trace on one mutex.  The oracle argument
of `lockOp`/`tryLockOp` is the underlying mutex's response at that point. -/
inductive SingleOp where
  | lockOp (resp : UnderlyingLock)
  | tryLockOp (resp : UnderlyingTryLock)
  | dropOp
deriving DecidableEq

/-- Executes one trace operation on (registry, holding-a-guard). -/
def execOp (mutex_id : MutexID) (st : LockedMutexesInner × Bool) (op : SingleOp) :
    LockedMutexesInner × Bool :=
  match op with
  | .lockOp resp =>
      let res := lock mutex_id st.1 resp
      (res.2, res.1.acquired || st.2)
  | .tryLockOp resp =>
      let res := try_lock mutex_id st.1 resp
      (res.2, res.1.acquired || st.2)
  | .dropOp =>
      if st.2 then
        ((ThreadCheckedMutexGuard.drop ⟨mutex_id⟩ st.1).2, false)
      else
        st

/-- Executes a list of trace operations from left to right. -/
def execTrace (mutex_id : MutexID) (st : LockedMutexesInner × Bool) :
    List SingleOp → LockedMutexesInner × Bool
  | [] => st
  | op :: ops => execTrace mutex_id (execOp mutex_id st op) ops

/-! ## Lemmas about the registry -/

namespace LockedMutexesInner

theorem inv_new (INLINE : Nat) : Inv (new INLINE) := by
  constructor
  · intro j ⟨hmem, hset⟩
    rcases List.eq_of_mem_replicate hmem with h
    exact Option.noConfusion h
  · intro j
    simp [new, List.count_replicate]

theorem insertFirstEmpty_eq_none_iff (mutex_id : MutexID) (idSet : Finset MutexID)
    (l : List (Option MutexID)) :
    insertFirstEmpty mutex_id idSet l = none ↔ none ∉ l := by
  induction l with
  | nil => simp [insertFirstEmpty]
  | cons hd rest ih =>
      cases hd with
      | none => by_cases h : mutex_id ∈ idSet <;> simp [insertFirstEmpty, h]
      | some other => simpa [insertFirstEmpty, Option.map_eq_none'] using ih

theorem insertFirstEmpty_some_of_mem {mutex_id : MutexID} {idSet : Finset MutexID}
    (h : mutex_id ∈ idSet) {l : List (Option MutexID)} {b : Bool}
    {l' : List (Option MutexID)}
    (heq : insertFirstEmpty mutex_id idSet l = some (b, l')) :
    b = false ∧ l' = l := by
  induction l generalizing b l' with
  | nil => simp [insertFirstEmpty] at heq
  | cons hd rest ih =>
      cases hd with
      | none =>
          simp [insertFirstEmpty, h] at heq
          exact ⟨heq.1, heq.2.symm⟩
      | some other =>
          simp only [insertFirstEmpty, Option.map_eq_some'] at heq
          obtain ⟨⟨b₀, r₀⟩, hrec, hpair⟩ := heq
          obtain ⟨hb, hr⟩ := Prod.mk.injEq .. ▸ hpair
          obtain ⟨hb₀, hr₀⟩ := ih hrec
          subst hb hr
          simp [hb₀, hr₀]

theorem insertFirstEmpty_some_of_not_mem {mutex_id : MutexID} {idSet : Finset MutexID}
    (h : mutex_id ∉ idSet) {l : List (Option MutexID)} {b : Bool}
    {l' : List (Option MutexID)}
    (heq : insertFirstEmpty mutex_id idSet l = some (b, l')) :
    b = true ∧ some mutex_id ∈ l' ∧
    l'.count (some mutex_id) = l.count (some mutex_id) + 1 ∧
    (∀ j : MutexID, j ≠ mutex_id → l'.count (some j) = l.count (some j)) ∧
    (∀ a, a ∈ l' → a = some mutex_id ∨ a ∈ l) := by
  induction l generalizing b l' with
  | nil => simp [insertFirstEmpty] at heq
  | cons hd rest ih =>
      cases hd with
      | none =>
          simp [insertFirstEmpty, h] at heq
          obtain ⟨hb, hl⟩ := heq
          subst hb
          refine ⟨rfl, ?_, ?_, ?_, ?_⟩
          · rw [← hl]; exact List.mem_cons_self _ _
          · rw [← hl]; simp [List.count_cons]
          · intro j hj
            rw [← hl]
            simp [List.count_cons, hj, Ne.symm hj]
          · intro a ha
            rw [← hl] at ha
            rcases List.mem_cons.mp ha with h1 | h1
            · exact Or.inl h1
            · exact Or.inr (List.mem_cons_of_mem _ h1)
      | some other =>
          simp only [insertFirstEmpty, Option.map_eq_some'] at heq
          obtain ⟨⟨b₀, r₀⟩, hrec, hpair⟩ := heq
          obtain ⟨hb, hr⟩ := Prod.mk.injEq .. ▸ hpair
          subst hb hr
          obtain ⟨hb₀, hmem, hcnt, hcnt', hsub⟩ := ih hrec
          refine ⟨hb₀, List.mem_cons_of_mem _ hmem, ?_, ?_, ?_⟩
          · simp [List.count_cons, hcnt]
            omega
          · intro j hj
            simp [List.count_cons, hcnt' j hj]
          · intro a ha
            rcases List.mem_cons.mp ha with h1 | h1
            · exact Or.inr (h1 ▸ List.mem_cons_self _ _)
            · rcases hsub a h1 with h2 | h2
              · exact Or.inl h2
              · exact Or.inr (List.mem_cons_of_mem _ h2)

theorem removeFirstMatch_eq_none_iff (mutex_id : MutexID) (l : List (Option MutexID)) :
    removeFirstMatch mutex_id l = none ↔ some mutex_id ∉ l := by
  induction l with
  | nil => simp [removeFirstMatch]
  | cons hd rest ih =>
      by_cases h : hd = some mutex_id
      · simp [removeFirstMatch, h]
      · simp [removeFirstMatch, h, Option.map_eq_none', ih, Ne.symm h]

theorem removeFirstMatch_some {mutex_id : MutexID} {l l' : List (Option MutexID)}
    (heq : removeFirstMatch mutex_id l = some l') :
    l'.count (some mutex_id) + 1 = l.count (some mutex_id) ∧
    (∀ j : MutexID, j ≠ mutex_id → l'.count (some j) = l.count (some j)) ∧
    (∀ a, a ∈ l' → a = none ∨ a ∈ l) := by
  induction l generalizing l' with
  | nil => simp [removeFirstMatch] at heq
  | cons hd rest ih =>
      by_cases h : hd = some mutex_id
      · simp [removeFirstMatch, h] at heq
        subst h
        refine ⟨?_, ?_, ?_⟩
        · rw [← heq]; simp [List.count_cons]
        · intro j hj
          rw [← heq]
          simp [List.count_cons, hj, Ne.symm hj]
        · intro a ha
          rw [← heq] at ha
          rcases List.mem_cons.mp ha with h1 | h1
          · exact Or.inl h1
          · exact Or.inr (List.mem_cons_of_mem _ h1)
      · simp only [removeFirstMatch, h, if_false, Option.map_eq_some'] at heq
        obtain ⟨r₀, hrec, hl'⟩ := heq
        subst hl'
        obtain ⟨hcnt, hcnt', hsub⟩ := ih hrec
        refine ⟨?_, ?_, ?_⟩
        · simp [List.count_cons, h]
          omega
        · intro j hj
          simp [List.count_cons, hcnt' j hj]
        · intro a ha
          rcases List.mem_cons.mp ha with h1 | h1
          · exact Or.inr (h1 ▸ List.mem_cons_self _ _)
          · rcases hsub a h1 with h2 | h2
            · exact Or.inl h2
            · exact Or.inr (List.mem_cons_of_mem _ h2)

theorem register_locked_fst (lm : LockedMutexesInner) (mutex_id : MutexID) :
    (lm.register_locked mutex_id).1 = !lm.locked_by_current_thread mutex_id := by
  unfold register_locked locked_by_current_thread
  by_cases h1 : some mutex_id ∈ lm.inline_ids
  · simp [h1]
  · rcases heq : insertFirstEmpty mutex_id lm.id_set lm.inline_ids with _ | ⟨b, l'⟩
    · by_cases h2 : mutex_id ∈ lm.id_set <;> simp [h1, h2, heq]
    · by_cases h2 : mutex_id ∈ lm.id_set
      · obtain ⟨hb, -⟩ := insertFirstEmpty_some_of_mem h2 heq
        simp [h1, h2, heq, hb]
      · obtain ⟨hb, -⟩ := insertFirstEmpty_some_of_not_mem h2 heq
        simp [h1, h2, heq, hb]

theorem register_locked_snd_of_fst_false {lm : LockedMutexesInner} {mutex_id : MutexID}
    (h : (lm.register_locked mutex_id).1 = false) :
    (lm.register_locked mutex_id).2 = lm := by
  unfold register_locked at h ⊢
  by_cases h1 : some mutex_id ∈ lm.inline_ids
  · simp [h1]
  · rcases heq : insertFirstEmpty mutex_id lm.id_set lm.inline_ids with _ | ⟨b, l'⟩
    · simp [h1, heq] at h ⊢
      rw [Finset.insert_eq_self.mpr h]
    · by_cases h2 : mutex_id ∈ lm.id_set
      · obtain ⟨-, hl⟩ := insertFirstEmpty_some_of_mem h2 heq
        simp [h1, heq, hl]
      · obtain ⟨hb, -⟩ := insertFirstEmpty_some_of_not_mem h2 heq
        simp [h1, heq, hb] at h

theorem locked_register_locked_self (lm : LockedMutexesInner) (mutex_id : MutexID) :
    ((lm.register_locked mutex_id).2).locked_by_current_thread mutex_id = true := by
  unfold register_locked locked_by_current_thread
  by_cases h1 : some mutex_id ∈ lm.inline_ids
  · simp [h1]
  · rcases heq : insertFirstEmpty mutex_id lm.id_set lm.inline_ids with _ | ⟨b, l'⟩
    · simp [h1, heq]
    · by_cases h2 : mutex_id ∈ lm.id_set
      · obtain ⟨-, hl⟩ := insertFirstEmpty_some_of_mem h2 heq
        simp [h1, heq, hl, h2]
      · obtain ⟨-, hmem, -⟩ := insertFirstEmpty_some_of_not_mem h2 heq
        simp [h1, heq, hmem]

theorem register_unlocked_fst (lm : LockedMutexesInner) (mutex_id : MutexID) :
    (lm.register_unlocked mutex_id).1 = lm.locked_by_current_thread mutex_id := by
  unfold register_unlocked locked_by_current_thread
  rcases heq : removeFirstMatch mutex_id lm.inline_ids with _ | l'
  · have h1 : some mutex_id ∉ lm.inline_ids :=
      (removeFirstMatch_eq_none_iff mutex_id lm.inline_ids).mp heq
    by_cases h2 : mutex_id ∈ lm.id_set <;> simp [h1, h2]
  · have h1 : some mutex_id ∈ lm.inline_ids := by
      by_contra h1
      rw [(removeFirstMatch_eq_none_iff mutex_id lm.inline_ids).mpr h1] at heq
      exact Option.noConfusion heq
    simp [h1]

theorem register_unlocked_snd_of_fst_false {lm : LockedMutexesInner} {mutex_id : MutexID}
    (h : (lm.register_unlocked mutex_id).1 = false) :
    (lm.register_unlocked mutex_id).2 = lm := by
  unfold register_unlocked at h ⊢
  rcases heq : removeFirstMatch mutex_id lm.inline_ids with _ | l'
  · simp [heq] at h ⊢
    rw [Finset.erase_eq_of_not_mem h]
  · simp [heq] at h

theorem locked_register_unlocked_self {lm : LockedMutexesInner} (hInv : Inv lm)
    (mutex_id : MutexID) :
    ((lm.register_unlocked mutex_id).2).locked_by_current_thread mutex_id = false := by
  unfold register_unlocked locked_by_current_thread
  rcases heq : removeFirstMatch mutex_id lm.inline_ids with _ | l'
  · have h1 : some mutex_id ∉ lm.inline_ids :=
      (removeFirstMatch_eq_none_iff mutex_id lm.inline_ids).mp heq
    simp [heq, h1]
  · have h1 : some mutex_id ∈ lm.inline_ids := by
      by_contra h1
      rw [(removeFirstMatch_eq_none_iff mutex_id lm.inline_ids).mpr h1] at heq
      exact Option.noConfusion heq
    obtain ⟨hcnt, -, -⟩ := removeFirstMatch_some heq
    have hle : lm.inline_ids.count (some mutex_id) ≤ 1 := hInv.2 mutex_id
    have hnotmem : some mutex_id ∉ l' := by
      intro hmem
      have := List.count_pos_iff.mpr hmem
      omega
    have hnotset : mutex_id ∉ lm.id_set := fun hset => hInv.1 mutex_id ⟨h1, hset⟩
    simp [heq, hnotmem, hnotset]

theorem inv_register_locked {lm : LockedMutexesInner} (hInv : Inv lm) (mutex_id : MutexID) :
    Inv ((lm.register_locked mutex_id).2) := by
  unfold register_locked
  by_cases h1 : some mutex_id ∈ lm.inline_ids
  · simpa [h1] using hInv
  · rcases heq : insertFirstEmpty mutex_id lm.id_set lm.inline_ids with _ | ⟨b, l'⟩
    · have hfull : none ∉ lm.inline_ids :=
        (insertFirstEmpty_eq_none_iff mutex_id lm.id_set lm.inline_ids).mp heq
      simp only [h1, if_false, heq]
      constructor
      · intro j ⟨hj1, hj2⟩
        rcases Finset.mem_insert.mp hj2 with hj3 | hj3
        · exact h1 (hj3 ▸ hj1)
        · exact hInv.1 j ⟨hj1, hj3⟩
      · exact hInv.2
    · by_cases h2 : mutex_id ∈ lm.id_set
      · obtain ⟨-, hl⟩ := insertFirstEmpty_some_of_mem h2 heq
        simp only [h1, if_false, heq]
        subst hl
        exact hInv
      · obtain ⟨-, -, hcnt, hcnt', hsub⟩ := insertFirstEmpty_some_of_not_mem h2 heq
        simp only [h1, if_false, heq]
        constructor
        · intro j ⟨hj1, hj2⟩
          rcases hsub _ hj1 with hj3 | hj3
          · exact h2 (Option.some.inj hj3 ▸ hj2)
          · exact hInv.1 j ⟨hj3, hj2⟩
        · intro j
          dsimp only
          by_cases hj : j = mutex_id
          · subst hj
            have h0 : lm.inline_ids.count (some j) = 0 :=
              List.count_eq_zero.mpr h1
            omega
          · rw [hcnt' j hj]
            exact hInv.2 j

theorem inv_register_unlocked {lm : LockedMutexesInner} (hInv : Inv lm) (mutex_id : MutexID) :
    Inv ((lm.register_unlocked mutex_id).2) := by
  unfold register_unlocked
  rcases heq : removeFirstMatch mutex_id lm.inline_ids with _ | l'
  · simp only [heq]
    constructor
    · intro j ⟨hj1, hj2⟩
      exact hInv.1 j ⟨hj1, Finset.mem_of_mem_erase hj2⟩
    · exact hInv.2
  · simp only [heq]
    obtain ⟨hcnt, hcnt', hsub⟩ := removeFirstMatch_some heq
    constructor
    · intro j ⟨hj1, hj2⟩
      rcases hsub _ hj1 with hj3 | hj3
      · exact Option.noConfusion hj3
      · exact hInv.1 j ⟨hj3, hj2⟩
    · intro j
      dsimp only
      by_cases hj : j = mutex_id
      · subst hj
        have := hInv.2 j
        omega
      · rw [hcnt' j hj]
        exact hInv.2 j

theorem register_locked_id_set_of_empty_slot {lm : LockedMutexesInner}
    (h : none ∈ lm.inline_ids) (mutex_id : MutexID) :
    ((lm.register_locked mutex_id).2).id_set = lm.id_set := by
  unfold register_locked
  by_cases h1 : some mutex_id ∈ lm.inline_ids
  · simp [h1]
  · rcases heq : insertFirstEmpty mutex_id lm.id_set lm.inline_ids with _ | ⟨b, l'⟩
    · exact absurd h ((insertFirstEmpty_eq_none_iff mutex_id lm.id_set lm.inline_ids).mp heq)
    · simp [h1, heq]
end LockedMutexesInner

/-! ## Lemmas about the allocator and the trace semantics -/

theorem runIds_eq (n : Nat) (h : n ≤ MAX_MUTEXES_PER_PROCESS) :
    runIds n = some (n, (List.range n).map (· + 1)) := by
  induction n with
  | zero => simp [runIds]
  | succ k ih =>
      have hk : k ≤ MAX_MUTEXES_PER_PROCESS := Nat.le_of_succ_le h
      have hklt : k < MAX_MUTEXES_PER_PROCESS := Nat.lt_of_succ_le h
      have hmod : (k + 1) % 2 ^ 64 = k + 1 := by
        apply Nat.mod_eq_of_lt
        have : MAX_MUTEXES_PER_PROCESS < 2 ^ 64 := by norm_num [MAX_MUTEXES_PER_PROCESS]
        omega
      rw [runIds, ih hk]
      have hlt : k + 1 < 2 ^ 64 := by
        have : MAX_MUTEXES_PER_PROCESS < 2 ^ 64 := by norm_num [MAX_MUTEXES_PER_PROCESS]
        omega
      simp [next_id, next_counter, hklt, hmod, List.range_succ]
      omega

theorem execOp_step (mutex_id : MutexID) (st : LockedMutexesInner × Bool)
    (hInv : st.1.Inv) (h : st.1.locked_by_current_thread mutex_id = st.2)
    (op : SingleOp) :
    (execOp mutex_id st op).1.Inv ∧
    (execOp mutex_id st op).1.locked_by_current_thread mutex_id
      = (execOp mutex_id st op).2 := by
  obtain ⟨reg, holding⟩ := st
  dsimp only at hInv h
  cases op with
  | lockOp resp =>
      dsimp only [execOp, lock]
      cases holding with
      | false =>
          have hf : (reg.register_locked mutex_id).1 = true := by
            rw [LockedMutexesInner.register_locked_fst, h]
            rfl
          cases resp <;>
            simp [hf, LockedMutexesInner.inv_register_locked hInv,
              LockedMutexesInner.locked_register_locked_self, LockOutcome.acquired]
      | true =>
          have hf : (reg.register_locked mutex_id).1 = false := by
            rw [LockedMutexesInner.register_locked_fst, h]
            rfl
          have hs := LockedMutexesInner.register_locked_snd_of_fst_false hf
          cases resp <;> simp [hf, hs, hInv, h, LockOutcome.acquired]
  | tryLockOp resp =>
      dsimp only [execOp, try_lock]
      cases holding with
      | false =>
          cases resp <;>
            simp [h, hInv, LockedMutexesInner.inv_register_locked hInv,
              LockedMutexesInner.locked_register_locked_self, TryLockOutcome.acquired]
      | true =>
          cases resp <;> simp [h, hInv, TryLockOutcome.acquired]
  | dropOp =>
      dsimp only [execOp]
      cases holding with
      | false => simpa using ⟨hInv, h⟩
      | true =>
          simp only [if_true, ThreadCheckedMutexGuard.drop]
          exact ⟨LockedMutexesInner.inv_register_unlocked hInv mutex_id,
            LockedMutexesInner.locked_register_unlocked_self hInv mutex_id⟩

theorem execTrace_step (mutex_id : MutexID) (ops : List SingleOp) :
    ∀ st : LockedMutexesInner × Bool, st.1.Inv →
      st.1.locked_by_current_thread mutex_id = st.2 →
      (execTrace mutex_id st ops).1.Inv ∧
      (execTrace mutex_id st ops).1.locked_by_current_thread mutex_id
        = (execTrace mutex_id st ops).2 := by
  induction ops with
  | nil => exact fun st hInv h => ⟨hInv, h⟩
  | cons op rest ih =>
      intro st hInv h
      obtain ⟨hInv', h'⟩ := execOp_step mutex_id st hInv h op
      exact ih _ hInv' h'

/-! ## The claims -/

/-- Claim C1: while the calling thread holds a `ThreadCheckedMutex` (its id is
registered in the thread's registry, which §C2 shows is exactly the span
between a successful acquisition and the drop of the returned guard), a
second `lock()` or `try_lock()` from the same thread returns the
`LockedByCurrentThread` error immediately: the result is the same for every
possible behaviour of the underlying mutex (it is never consulted, so the
call cannot block or panic), and the registry is returned unchanged, leaving
the first guard and its registration intact. -/
theorem claim_C1_second_acquisition_fails (mutex_id : MutexID)
    (reg : LockedMutexesInner)
    (h : reg.locked_by_current_thread mutex_id = true) :
    (∀ resp : UnderlyingLock,
      lock mutex_id reg resp = (.errLockedByCurrentThread, reg)) ∧
    (∀ resp : UnderlyingTryLock,
      try_lock mutex_id reg resp = (.errLockedByCurrentThread, reg)) := by
  constructor
  · intro resp
    have hf : (reg.register_locked mutex_id).1 = false := by
      rw [LockedMutexesInner.register_locked_fst, h]
      rfl
    have hs := LockedMutexesInner.register_locked_snd_of_fst_false hf
    cases resp <;> simp [lock, hf, hs]
  · intro resp
    simp [try_lock, h]

/-- Witness for C1 at a concrete registry holding id 1. -/
theorem claim_C1_witness :
    (⟨[some 1, none], ∅⟩ : LockedMutexesInner).locked_by_current_thread 1 = true ∧
    ((∀ resp : UnderlyingLock,
      lock 1 ⟨[some 1, none], ∅⟩ resp
        = (.errLockedByCurrentThread, ⟨[some 1, none], ∅⟩)) ∧
    (∀ resp : UnderlyingTryLock,
      try_lock 1 ⟨[some 1, none], ∅⟩ resp
        = (.errLockedByCurrentThread, ⟨[some 1, none], ∅⟩))) :=
  ⟨by decide, claim_C1_second_acquisition_fails 1 ⟨[some 1, none], ∅⟩ (by decide)⟩

/-- Claim C2: along any single-thread sequence of `lock`, `try_lock` and
guard-drop operations on one mutex — starting from a registry satisfying the
representation invariant in which the mutex is not registered —
`locked_by_current_thread` is `true` exactly when the thread is strictly
between a successful acquisition and the drop of the guard it returned
(the `holding` component of the trace state), and `false` at every other
point: before the first acquisition, after each drop, and after a failed
acquisition made while not holding.  Every point of a trace is the end of
some prefix, and `ops` ranges over all (in particular all prefixes). -/
theorem claim_C2_locked_iff_between_lock_and_drop (mutex_id : MutexID)
    (reg₀ : LockedMutexesInner) (ops : List SingleOp) (hInv : reg₀.Inv)
    (h0 : reg₀.locked_by_current_thread mutex_id = false) :
    (execTrace mutex_id (reg₀, false) ops).1.locked_by_current_thread mutex_id
      = (execTrace mutex_id (reg₀, false) ops).2 :=
  (execTrace_step mutex_id ops (reg₀, false) hInv h0).2

/-- Witness for C2: a fresh registry and the trace lock, drop, try_lock. -/
theorem claim_C2_witness :
    (LockedMutexesInner.new 4).Inv ∧
    (LockedMutexesInner.new 4).locked_by_current_thread 1 = false ∧
    ((execTrace 1 (LockedMutexesInner.new 4, false)
        [.lockOp .ok, .dropOp, .tryLockOp .poisoned]).1.locked_by_current_thread 1
      = (execTrace 1 (LockedMutexesInner.new 4, false)
        [.lockOp .ok, .dropOp, .tryLockOp .poisoned]).2) :=
  ⟨LockedMutexesInner.inv_new 4, by decide,
    claim_C2_locked_iff_between_lock_and_drop 1 (LockedMutexesInner.new 4)
      [.lockOp .ok, .dropOp, .tryLockOp .poisoned]
      (LockedMutexesInner.inv_new 4) (by decide)⟩

/-- Claim C3: exact finite-set semantics of the per-thread registry, for
every registry state satisfying the representation invariant (every state
constructible through the registry's interface satisfies it — see C4; the
fields of `LockedMutexesInner` are private to its module).  `register_locked`
returns `true` iff the id was not recorded, and records it in either case,
changing nothing at all when it returns `false`; `register_unlocked` returns
`true` iff the id was recorded, and leaves it unrecorded in either case,
changing nothing when it returns `false`.  `locked_by_current_thread` is the
membership query; it is a pure function of the state (no side effects by
construction). -/
theorem claim_C3_registry_set_semantics (lm : LockedMutexesInner)
    (mutex_id : MutexID) (hInv : lm.Inv) :
    ((lm.register_locked mutex_id).1 = !lm.locked_by_current_thread mutex_id) ∧
    ((lm.register_locked mutex_id).2.locked_by_current_thread mutex_id = true) ∧
    ((lm.register_locked mutex_id).1 = false → (lm.register_locked mutex_id).2 = lm) ∧
    ((lm.register_unlocked mutex_id).1 = lm.locked_by_current_thread mutex_id) ∧
    ((lm.register_unlocked mutex_id).2.locked_by_current_thread mutex_id = false) ∧
    ((lm.register_unlocked mutex_id).1 = false → (lm.register_unlocked mutex_id).2 = lm) :=
  ⟨LockedMutexesInner.register_locked_fst lm mutex_id,
    LockedMutexesInner.locked_register_locked_self lm mutex_id,
    fun hf => LockedMutexesInner.register_locked_snd_of_fst_false hf,
    LockedMutexesInner.register_unlocked_fst lm mutex_id,
    LockedMutexesInner.locked_register_unlocked_self hInv mutex_id,
    fun hf => LockedMutexesInner.register_unlocked_snd_of_fst_false hf⟩

/-- Witness for C3 at the fresh registry with four inline slots. -/
theorem claim_C3_witness :
    (LockedMutexesInner.new 4).Inv ∧
    ((((LockedMutexesInner.new 4).register_locked 7).1
        = !(LockedMutexesInner.new 4).locked_by_current_thread 7) ∧
    (((LockedMutexesInner.new 4).register_locked 7).2.locked_by_current_thread 7 = true) ∧
    (((LockedMutexesInner.new 4).register_locked 7).1 = false →
      ((LockedMutexesInner.new 4).register_locked 7).2 = LockedMutexesInner.new 4) ∧
    (((LockedMutexesInner.new 4).register_unlocked 7).1
        = (LockedMutexesInner.new 4).locked_by_current_thread 7) ∧
    (((LockedMutexesInner.new 4).register_unlocked 7).2.locked_by_current_thread 7 = false) ∧
    (((LockedMutexesInner.new 4).register_unlocked 7).1 = false →
      ((LockedMutexesInner.new 4).register_unlocked 7).2 = LockedMutexesInner.new 4)) :=
  ⟨LockedMutexesInner.inv_new 4,
    claim_C3_registry_set_semantics (LockedMutexesInner.new 4) 7
      (LockedMutexesInner.inv_new 4)⟩

/-- Claim C4: the representation invariant — every recorded id appears in
exactly one place, never in both an inline slot and the overflow set and
never in two inline slots — holds of a fresh registry and is preserved by
`register_locked` and `register_unlocked` from every state satisfying it
(`locked_by_current_thread` takes no state, preserving it vacuously).
Moreover `register_locked` touches the overflow set only when the inline
array is full (conjunct four), and when a slot is free it consults the
overflow set first, declining to insert when the id is already there
(conjunct five). -/
theorem claim_C4_registry_invariant (lm : LockedMutexesInner)
    (mutex_id : MutexID) (hInv : lm.Inv) :
    ((lm.register_locked mutex_id).2).Inv ∧
    ((lm.register_unlocked mutex_id).2).Inv ∧
    (∀ INLINE : Nat, (LockedMutexesInner.new INLINE).Inv) ∧
    (none ∈ lm.inline_ids → ((lm.register_locked mutex_id).2).id_set = lm.id_set) ∧
    (mutex_id ∈ lm.id_set → none ∈ lm.inline_ids →
      lm.register_locked mutex_id = (false, lm)) := by
  refine ⟨LockedMutexesInner.inv_register_locked hInv mutex_id,
    LockedMutexesInner.inv_register_unlocked hInv mutex_id,
    LockedMutexesInner.inv_new,
    fun hslot => LockedMutexesInner.register_locked_id_set_of_empty_slot hslot mutex_id,
    fun hset hslot => ?_⟩
  have hnotinline : some mutex_id ∉ lm.inline_ids :=
    fun hmem => hInv.1 mutex_id ⟨hmem, hset⟩
  unfold LockedMutexesInner.register_locked
  rcases heq : LockedMutexesInner.insertFirstEmpty mutex_id lm.id_set lm.inline_ids
    with _ | ⟨b, l'⟩
  · exact absurd hslot
      ((LockedMutexesInner.insertFirstEmpty_eq_none_iff mutex_id lm.id_set
        lm.inline_ids).mp heq)
  · obtain ⟨hb, hl⟩ := LockedMutexesInner.insertFirstEmpty_some_of_mem hset heq
    subst hb hl
    simp [hnotinline, heq]

/-- Witness for C4 at a reachable two-slot state holding ids 1 and 2. -/
theorem claim_C4_witness :
    (LockedMutexesInner.new 2).Inv ∧
    ((((LockedMutexesInner.new 2).register_locked 9).2).Inv ∧
    (((LockedMutexesInner.new 2).register_unlocked 9).2).Inv ∧
    (∀ INLINE : Nat, (LockedMutexesInner.new INLINE).Inv) ∧
    (none ∈ (LockedMutexesInner.new 2).inline_ids →
      (((LockedMutexesInner.new 2).register_locked 9).2).id_set
        = (LockedMutexesInner.new 2).id_set) ∧
    (9 ∈ (LockedMutexesInner.new 2).id_set →
      none ∈ (LockedMutexesInner.new 2).inline_ids →
      (LockedMutexesInner.new 2).register_locked 9 = (false, LockedMutexesInner.new 2))) :=
  ⟨LockedMutexesInner.inv_new 2,
    claim_C4_registry_invariant (LockedMutexesInner.new 2) 9
      (LockedMutexesInner.inv_new 2)⟩

/-- Claim C5: running `next_id` any number `n ≤ 2^63` of times from the
initial counter succeeds and issues pairwise-distinct, non-zero ids (each
call returns an id distinct from every previous one); and one call past the
2^63 bound is fatal — `runIds (2^63 + 1)` is `none`, because the final call
hits the `assert!` and terminates rather than returning a (reused) id. -/
theorem claim_C5_ids_unique_nonzero_fatal (n : Nat)
    (h : n ≤ MAX_MUTEXES_PER_PROCESS) :
    (∃ ids : List MutexID, runIds n = some (n, ids) ∧ ids.Nodup ∧
      ∀ id ∈ ids, id ≠ 0) ∧
    runIds (MAX_MUTEXES_PER_PROCESS + 1) = none := by
  constructor
  · refine ⟨(List.range n).map (· + 1), runIds_eq n h, ?_, ?_⟩
    · refine List.Nodup.map ?_ (List.nodup_range n)
      intro a b hab
      simpa using hab
    · intro id hid
      simp only [List.mem_map] at hid
      obtain ⟨a, -, ha⟩ := hid
      subst ha
      simp
  · rw [runIds, runIds_eq MAX_MUTEXES_PER_PROCESS le_rfl]
    simp [next_id, next_counter]

/-- Witness for C5 at three calls. -/
theorem claim_C5_witness :
    3 ≤ MAX_MUTEXES_PER_PROCESS ∧
    ((∃ ids : List MutexID, runIds 3 = some (3, ids) ∧ ids.Nodup ∧
      ∀ id ∈ ids, id ≠ 0) ∧
    runIds (MAX_MUTEXES_PER_PROCESS + 1) = none) :=
  ⟨by decide, claim_C5_ids_unique_nonzero_fatal 3 (by decide)⟩

/-- Claim C6: when the calling thread does not already hold the mutex and the
underlying acquisition reports poison, both `lock` and `try_lock` still
acquire: the id becomes registered in the calling thread's registry and the
guard is returned wrapped in a `Poisoned` error rather than as a plain
success. -/
theorem claim_C6_poisoned_still_acquires (mutex_id : MutexID)
    (reg : LockedMutexesInner)
    (h : reg.locked_by_current_thread mutex_id = false) :
    lock mutex_id reg .poisoned
      = (.errPoisoned ⟨mutex_id⟩, (reg.register_locked mutex_id).2) ∧
    try_lock mutex_id reg .poisoned
      = (.errPoisoned ⟨mutex_id⟩, (reg.register_locked mutex_id).2) ∧
    ((reg.register_locked mutex_id).2).locked_by_current_thread mutex_id = true := by
  have hf : (reg.register_locked mutex_id).1 = true := by
    rw [LockedMutexesInner.register_locked_fst, h]
    rfl
  refine ⟨?_, ?_, LockedMutexesInner.locked_register_locked_self reg mutex_id⟩
  · simp [lock, hf]
  · simp [try_lock, h]

/-- Witness for C6 at a fresh registry. -/
theorem claim_C6_witness :
    (LockedMutexesInner.new 4).locked_by_current_thread 1 = false ∧
    (lock 1 (LockedMutexesInner.new 4) .poisoned
      = (.errPoisoned ⟨1⟩, ((LockedMutexesInner.new 4).register_locked 1).2) ∧
    try_lock 1 (LockedMutexesInner.new 4) .poisoned
      = (.errPoisoned ⟨1⟩, ((LockedMutexesInner.new 4).register_locked 1).2) ∧
    (((LockedMutexesInner.new 4).register_locked 1).2).locked_by_current_thread 1 = true) :=
  ⟨by decide, claim_C6_poisoned_still_acquires 1 (LockedMutexesInner.new 4) (by decide)⟩

/-- Claim C7: `try_lock` checks `locked_by_current_thread` first: when it is
`true` the result is `LockedByCurrentThread` with the registry unchanged, for
every possible behaviour of the underlying non-blocking acquisition (which is
therefore never invoked).  Otherwise: on `WouldBlock` the error is returned
and the registry is unchanged; on clean or poisoned success the id is
registered and a guard is returned (wrapped in a poison error when
poisoned). -/
theorem claim_C7_try_lock_order_and_cases (mutex_id : MutexID)
    (reg : LockedMutexesInner) :
    (reg.locked_by_current_thread mutex_id = true →
      ∀ resp : UnderlyingTryLock,
        try_lock mutex_id reg resp = (.errLockedByCurrentThread, reg)) ∧
    (reg.locked_by_current_thread mutex_id = false →
      try_lock mutex_id reg .wouldBlock = (.errWouldBlock, reg) ∧
      try_lock mutex_id reg .ok
        = (.ok ⟨mutex_id⟩, (reg.register_locked mutex_id).2) ∧
      try_lock mutex_id reg .poisoned
        = (.errPoisoned ⟨mutex_id⟩, (reg.register_locked mutex_id).2) ∧
      ((reg.register_locked mutex_id).2).locked_by_current_thread mutex_id = true) := by
  constructor
  · intro h resp
    simp [try_lock, h]
  · intro h
    refine ⟨?_, ?_, ?_, LockedMutexesInner.locked_register_locked_self reg mutex_id⟩
      <;> simp [try_lock, h]

/-- Witness for C7 at a fresh registry and a registry holding the id. -/
theorem claim_C7_witness :
    ((LockedMutexesInner.new 4).locked_by_current_thread 1 = true →
      ∀ resp : UnderlyingTryLock,
        try_lock 1 (LockedMutexesInner.new 4) resp
          = (.errLockedByCurrentThread, LockedMutexesInner.new 4)) ∧
    ((LockedMutexesInner.new 4).locked_by_current_thread 1 = false →
      try_lock 1 (LockedMutexesInner.new 4) .wouldBlock
        = (.errWouldBlock, LockedMutexesInner.new 4) ∧
      try_lock 1 (LockedMutexesInner.new 4) .ok
        = (.ok ⟨1⟩, ((LockedMutexesInner.new 4).register_locked 1).2) ∧
      try_lock 1 (LockedMutexesInner.new 4) .poisoned
        = (.errPoisoned ⟨1⟩, ((LockedMutexesInner.new 4).register_locked 1).2) ∧
      (((LockedMutexesInner.new 4).register_locked 1).2).locked_by_current_thread 1
        = true) :=
  claim_C7_try_lock_order_and_cases 1 (LockedMutexesInner.new 4)

/-- Claim C8: dropping a `ThreadCheckedMutexGuard` unconditionally calls
`register_unlocked` for its id on the current thread's registry (the drop is
exactly that call; the inner guard, releasing the underlying lock, is dropped
afterwards).  Under the precondition that the guard is dropped on the thread
that created it — so that thread's registry still records the id, by C2 —
`register_unlocked` returns `true` and the `debug_assert!` in the drop
implementation never fails. -/
theorem claim_C8_guard_drop_register_unlocked (g : ThreadCheckedMutexGuard)
    (reg : LockedMutexesInner)
    (h : reg.locked_by_current_thread g.mutex_id = true) :
    g.drop reg = reg.register_unlocked g.mutex_id ∧
    (g.drop reg).1 = true := by
  refine ⟨rfl, ?_⟩
  rw [ThreadCheckedMutexGuard.drop, LockedMutexesInner.register_unlocked_fst, h]

/-- Witness for C8 at a registry holding the guard's id. -/
theorem claim_C8_witness :
    (⟨[some 1, none], ∅⟩ : LockedMutexesInner).locked_by_current_thread 1 = true ∧
    ((ThreadCheckedMutexGuard.drop ⟨1⟩ ⟨[some 1, none], ∅⟩
      = (⟨[some 1, none], ∅⟩ : LockedMutexesInner).register_unlocked 1) ∧
    (ThreadCheckedMutexGuard.drop ⟨1⟩ ⟨[some 1, none], ∅⟩).1 = true) :=
  ⟨by decide,
    claim_C8_guard_drop_register_unlocked ⟨1⟩ ⟨[some 1, none], ∅⟩ (by decide)⟩

/-- Claim C9: `into_inner` and `get_mut` bypass the lock: their embeddings
consult only the underlying mutex (no thread registry appears in their
definitions, so no registration or reentrancy bookkeeping can occur); they
return the protected value as currently stored (in particular the value of
the latest write, conjuncts three and four), and they can fail only with an
`AccessError` wrapping poison — the `AccessError` type consists of exactly a
`PoisonError` field, with no `WouldBlock` or `LockedByCurrentThread`
alternative (final conjunct). -/
theorem claim_C9_bypass_accessors (α : Type) (m : ThreadCheckedMutex α) (v : α) :
    (m.into_inner
      = if m.mutex.poisoned then .error ⟨⟨m.mutex.value⟩⟩ else .ok m.mutex.value) ∧
    (m.get_mut
      = if m.mutex.poisoned then .error ⟨⟨m.mutex.value⟩⟩ else .ok m.mutex.value) ∧
    ((m.setValue v).into_inner
      = if m.mutex.poisoned then .error ⟨⟨v⟩⟩ else .ok v) ∧
    ((m.setValue v).get_mut
      = if m.mutex.poisoned then .error ⟨⟨v⟩⟩ else .ok v) ∧
    (∀ e : AccessError α, m.into_inner = .error e →
      m.mutex.poisoned = true ∧ e = ⟨⟨m.mutex.value⟩⟩) ∧
    (∀ e : AccessError α, e = ⟨e.poison⟩) := by
  obtain ⟨mid, p, val⟩ := m
  cases p <;>
    simp [ThreadCheckedMutex.into_inner, ThreadCheckedMutex.get_mut,
      ThreadCheckedMutex.setValue, StdMutex.into_inner, StdMutex.get_mut,
      Except.mapError]

/-- Witness for C9 at a poisoned mutex over `Nat`. -/
theorem claim_C9_witness :
    ((⟨1, true, 42⟩ : ThreadCheckedMutex Nat).into_inner
      = if (true : Bool) then .error ⟨⟨42⟩⟩ else .ok 42) ∧
    ((⟨1, true, 42⟩ : ThreadCheckedMutex Nat).get_mut
      = if (true : Bool) then .error ⟨⟨42⟩⟩ else .ok 42) ∧
    (((⟨1, true, 42⟩ : ThreadCheckedMutex Nat).setValue 7).into_inner
      = if (true : Bool) then .error ⟨⟨7⟩⟩ else .ok 7) ∧
    (((⟨1, true, 42⟩ : ThreadCheckedMutex Nat).setValue 7).get_mut
      = if (true : Bool) then .error ⟨⟨7⟩⟩ else .ok 7) ∧
    (∀ e : AccessError Nat,
      (⟨1, true, 42⟩ : ThreadCheckedMutex Nat).into_inner = .error e →
      (true : Bool) = true ∧ e = ⟨⟨42⟩⟩) ∧
    (∀ e : AccessError Nat, e = ⟨e.poison⟩) :=
  claim_C9_bypass_accessors Nat ⟨1, true, 42⟩ 7

/-- Claim C10: if `locked_by_current_thread` reports the id as not held, then
`register_locked` returns `true` — the property `try_lock` relies on when it
discards the boolean result of `register_locked` after the underlying
acquisition succeeds cleanly or with poison. -/
theorem claim_C10_register_locked_succeeds_when_unheld (lm : LockedMutexesInner)
    (mutex_id : MutexID)
    (h : lm.locked_by_current_thread mutex_id = false) :
    (lm.register_locked mutex_id).1 = true := by
  rw [LockedMutexesInner.register_locked_fst, h]
  rfl

/-- Witness for C10 at a fresh registry. -/
theorem claim_C10_witness :
    (LockedMutexesInner.new 4).locked_by_current_thread 3 = false ∧
    ((LockedMutexesInner.new 4).register_locked 3).1 = true :=
  ⟨by decide,
    claim_C10_register_locked_succeeds_when_unheld (LockedMutexesInner.new 4) 3
      (by decide)⟩

end ThreadCheckedLock
